import Mathlib

/-!
Verification of the CDDIS product-coverage resolver
(`src/app/models/cddis_handler.py`).

Shallow embedding conventions:
* A `datetime` is a `Nat`: minutes since 0001-01-01 00:00 (proleptic
  Gregorian, matching the ordinal arithmetic used by Python `datetime`).
* A `timedelta` is a `Nat` number of minutes.
* A pandas dataframe of parsed records is a `List ProductRecord` in row
  order; the dataframes of shape `{analysis_center, available_types}` are
  `List (String × List (String × String))` in row order.
* Python exceptions raised by a function are modelled as `Except.error`
  with the exception text; normal returns as `Except.ok`.
-/

deriving instance DecidableEq for Except

namespace CddisHandler

/-- One parsed catalog entry, mirroring the dict appended to `parsed_data`
in `CDDIS_Handler.__df_parse_cddis_str_array`
(src/app/models/cddis_handler.py lines 231-239). -/
structure ProductRecord where
  analysis_center : String
  project_type : String
  solution_type : String
  end_validity : Nat
  file_type : String
  duration : Nat
  filename : String
deriving Repr, DecidableEq

/-- Character class `[A-Z0-9]` of the source regex (line 213). -/
def isAlnumUpper (c : Char) : Bool := c.isUpper || c.isDigit

/-- Character class `.` of the source regex: any character except a
newline (Python `re` default behaviour of the dot). -/
def isRegexDot (c : Char) : Bool := c != '\n'

/-- Consume exactly `n` characters each satisfying `p`, returning the
consumed block and the remainder; `none` when the input is too short or a
character fails `p`.  Used to embed the fixed-width regex of line 213. -/
def grabN (p : Char → Bool) : Nat → List Char → Option (List Char × List Char)
  | 0, cs => some ([], cs)
  | _ + 1, [] => none
  | n + 1, c :: cs =>
    if p c then
      match grabN p n cs with
      | some (a, b) => some (c :: a, b)
      | none => none
    else none

/-- Value of a big-endian list of ASCII digit characters, as computed by
Python `int` on the captured digit groups. -/
def digitsToNat (ds : List Char) : Nat :=
  ds.foldl (fun a c => 10 * a + (c.toNat - 48)) 0

/-- Gregorian leap-year test, as in Python `calendar`/`datetime`. -/
def isLeap (y : Nat) : Bool :=
  (y % 4 == 0 && y % 100 != 0) || y % 400 == 0

/-- Number of days in the years 1 .. y-1 (proleptic Gregorian), so that
day 1 of year 1 is day 0. -/
def daysBeforeYear (y : Nat) : Nat :=
  let n := y - 1
  365 * n + n / 4 - n / 100 + n / 400

/-- Number of days of year `y`. -/
def daysInYear (y : Nat) : Nat := if isLeap y then 366 else 365

/-- Minutes since 0001-01-01 00:00 of (year, day-of-year, hour, minute). -/
def encodeYDHM (y doy h m : Nat) : Nat :=
  (daysBeforeYear y + (doy - 1)) * 1440 + h * 60 + m

/-- Embedding of `datetime.strptime(end_validity_str, "%Y%j%H%M")`
(source line 229) applied to an 11-digit string split as 4+3+2+2 digits.
With eleven digits to consume, `%Y` takes exactly 4 and the `%j`, `%H`,
`%M` patterns (at most 3, 2, 2 digits) are forced to take 3, 2 and 2.
`strptime` accepts day-of-year 001-366 (366 in a non-leap year rolls over
to January 1 of the next year via `date.fromordinal`), hours 00-23 and
minutes 00-59; everything else raises `ValueError`, which the source
catches by dropping the line, so failure is `none` here.  The only
rollover that raises is past year 9999 (`date.fromordinal` overflow). -/
def decodeYDHM (y doy h m : Nat) : Option Nat :=
  if y = 0 then none
  else if doy = 0 ∨ 366 < doy then none
  else if 23 < h then none
  else if 59 < m then none
  else if daysInYear y < doy ∧ y = 9999 then none
  else some (encodeYDHM y doy h m)

/-- Captured groups of the filename regex of source line 213
pattern `([A-Z0-9]\x7b3\x7d)[0-9]([A-Z]\x7b3\x7d)([A-Z]\x7b3\x7d)_(\d\x7b11\x7d)_([0-9]\x7b2\x7d)._([0-9]\x7b2\x7d)._.\x7b3\x7d.([A-Z0-9]\x7b3\x7d)`,
with the 11-digit timestamp group split 4+3+2+2 as consumed by
`strptime`. -/
structure RawGroups where
  ac : List Char
  pt : List Char
  st : List Char
  yDigits : List Char
  doyDigits : List Char
  hDigits : List Char
  minDigits : List Char
  durDigits : List Char
  cat : List Char
deriving Repr, DecidableEq

/-- Match an ordered list of fixed-width character-class pieces against a
prefix of the input, returning the consumed block of every piece. -/
def matchGroups : List (Nat × (Char → Bool)) → List Char → Option (List (List Char))
  | [], _ => some []
  | (n, p) :: ps, cs =>
    match grabN p n cs with
    | none => none
    | some (a, r) =>
      match matchGroups ps r with
      | none => none
      | some gs => some (a :: gs)

/-- Ordered pieces of the source regex of line 213, with the 11-digit
timestamp group split 4+3+2+2 as consumed by `strptime`.  The character
`_` only matches itself, written here as a one-character class. -/
def shapePattern : List (Nat × (Char → Bool)) :=
  [ (3, isAlnumUpper)         -- group 1: analysis_center
  , (1, Char.isDigit)         -- padding digit
  , (3, Char.isUpper)         -- group 2: project_type
  , (3, Char.isUpper)         -- group 3: solution_type
  , (1, fun c => c == '_')
  , (4, Char.isDigit)         -- group 4a: year
  , (3, Char.isDigit)         -- group 4b: day of year
  , (2, Char.isDigit)         -- group 4c: hour
  , (2, Char.isDigit)         -- group 4d: minute
  , (1, fun c => c == '_')
  , (2, Char.isDigit)         -- group 5: duration value
  , (1, isRegexDot)           -- duration unit position, any character
  , (1, fun c => c == '_')
  , (2, Char.isDigit)         -- group 6: sample rate value, unused
  , (1, isRegexDot)           -- sample rate unit position, any character
  , (1, fun c => c == '_')
  , (3, isRegexDot)           -- three ignored characters
  , (1, isRegexDot)           -- separator position, any character
  , (3, isAlnumUpper) ]       -- group 7: file category

/-- Prefix match of the source regex (line 213) against a filename,
returning the captured groups.  All pieces are fixed width, so the match
is deterministic; anything may follow the final category group
(`re.match` is a prefix match, so trailing `.gz` etc. is accepted). -/
def splitShape (cs : List Char) : Option RawGroups :=
  match matchGroups shapePattern cs with
  | none => none
  | some gs =>
    some ⟨gs.getD 0 [], gs.getD 2 [], gs.getD 3 [], gs.getD 5 [],
          gs.getD 6 [], gs.getD 7 [], gs.getD 8 [], gs.getD 10 [],
          gs.getD 18 []⟩

/-- Embedding of the per-filename part of
`CDDIS_Handler.__df_parse_cddis_str_array` (lines 225-241): regex match,
timestamp decoding, `duration = timedelta(int(duration))` (a count of
days, hence `* 1440` minutes).  Returns `none` exactly when the source
skips the line (no regex match, or `ValueError` from `strptime`). -/
def parseFilename (tok : String) : Option ProductRecord :=
  match splitShape tok.data with
  | none => none
  | some g =>
    match decodeYDHM (digitsToNat g.yDigits) (digitsToNat g.doyDigits)
        (digitsToNat g.hDigits) (digitsToNat g.minDigits) with
    | none => none
    | some ev =>
      some {
        analysis_center := ⟨g.ac⟩
        project_type := ⟨g.pt⟩
        solution_type := ⟨g.st⟩
        end_validity := ev
        file_type := ⟨g.cat⟩
        duration := digitsToNat g.durDigits * 1440
        filename := tok }

/-- Whitespace characters recognised by Python `str.split()`. -/
def pyIsSpace (c : Char) : Bool :=
  c == ' ' || c == '\t' || c == '\n' || c == '\r' || c == '\x0b' || c == '\x0c'

/-- Result of `line.strip().split()[0]` guarded by the emptiness check of
source lines 219-223: the first maximal run of non-whitespace characters,
or `none` for a line that is empty or all whitespace. -/
def firstToken (line : String) : Option String :=
  let rest := line.data.dropWhile pyIsSpace
  if rest = [] then none
  else some ⟨rest.takeWhile (fun c => !pyIsSpace c)⟩

/-- One iteration of the parse loop of lines 217-241: a line contributes
a record exactly when its first whitespace-delimited token matches the
regex and its timestamp decodes. -/
def parseLine (line : String) : Option ProductRecord :=
  match firstToken line with
  | none => none
  | some tok => parseFilename tok

/-- Embedding of the whole loop of `__df_parse_cddis_str_array`
(lines 215-242): the dataframe rows in order of the input lines. -/
def df_parse_cddis_str_array (lines : List String) : List ProductRecord :=
  lines.foldl
    (fun acc l =>
      match parseLine l with
      | some r => acc ++ [r]
      | none => acc)
    []

/-! Resolver (`get_valid_products_by_datetime`, lines 292-364). -/

/-- Rows of `self.df[self.df["end_validity"] + self.df["duration"] >= date_time_end]`
(line 302), the upper-bound pass. -/
def reachingRecords (df : List ProductRecord) (tEnd : Nat) : List ProductRecord :=
  df.filter (fun r => decide (tEnd ≤ r.end_validity + r.duration))

/-- Rows of `self.df[self.df["end_validity"] <= date_time_start]`
(line 322), the record set inspected by the lower-bound pass. -/
def settledRecords (df : List ProductRecord) (tStart : Nat) : List ProductRecord :=
  df.filter (fun r => decide (r.end_validity ≤ tStart))

/-- Distinct values of `f` over the rows in first-appearance order, as
produced by iterating rows into a `defaultdict` (key order) and by
pandas `Series.unique`. -/
def distinctsBy {α : Type} [DecidableEq α] (f : ProductRecord → α)
    (rs : List ProductRecord) : List α :=
  rs.foldl (fun acc r => if f r ∈ acc then acc else acc ++ [f r]) []

/-- Python tuple comparison on `(str, str)`: lexicographic with the
code-point order on strings, as used by `sorted`. -/
def pairLtB (a b : String × String) : Bool :=
  decide (a.1 < b.1) || (a.1 == b.1 && decide (a.2 < b.2))

/-- Insert into a sorted list, keeping existing elements first on ties. -/
def pairInsert (x : String × String) :
    List (String × String) → List (String × String)
  | [] => [x]
  | y :: ys => if pairLtB x y then x :: y :: ys else y :: pairInsert x ys

/-- Insertion sort by `pairLtB`, embedding Python `sorted`. -/
def sortPairs (l : List (String × String)) : List (String × String) :=
  l.foldr pairInsert []

/-- Distinct elements of the list, embedding the `set(...)` the source
builds before sorting; the order does not matter because the result is
always sorted afterwards. -/
def dedupPairs : List (String × String) → List (String × String)
  | [] => []
  | x :: xs => if x ∈ xs then dedupPairs xs else x :: dedupPairs xs

/-- Embedding of `sorted(list(set(...)))` applied to a list of
`(project_type, solution_type)` pairs (lines 315-318 and 356-359). -/
def sortedSet (l : List (String × String)) : List (String × String) :=
  sortPairs (dedupPairs l)

/-- Pairs `(project_type, solution_type)` of the rows of one analysis
center, in row order (the values added to `product_tuples[ac]`,
lines 308-312). -/
def tuplesOf (rs : List ProductRecord) (ac : String) : List (String × String) :=
  rs.filterMap (fun r =>
    if r.analysis_center = ac then some (r.project_type, r.solution_type)
    else none)

/-- The `product_tuples` dataframe of lines 307-318 built from a record
set: one row per analysis center in first-appearance order, with the
sorted set of its `(project_type, solution_type)` pairs. -/
def productTuples (rs : List ProductRecord) :
    List (String × List (String × String)) :=
  (distinctsBy (fun r => r.analysis_center) rs).map
    (fun ac => (ac, sortedSet (tuplesOf rs ac)))

/-- Candidates surviving the upper-bound pass: `product_tuples` built
from the records reaching `date_time_end` (lines 302-318). -/
def candidates (df : List ProductRecord) (tEnd : Nat) :
    List (String × List (String × String)) :=
  productTuples (reachingRecords df tEnd)

/-- The `selected_rows` of lines 331-333: rows of one
`(analysis_center, project_type, solution_type)` combination. -/
def comboRows (rs : List ProductRecord) (ac pt st : String) :
    List ProductRecord :=
  rs.filter (fun r =>
    r.analysis_center == ac && r.project_type == pt && r.solution_type == st)

/-- File categories observed at one `end_validity` instant (the
`files_types` of line 338; pandas `unique` only removes duplicates,
which leaves membership unchanged, so the plain projection is used). -/
def typesAt (rs : List ProductRecord) (t : Nat) : List String :=
  (rs.filter (fun r => r.end_validity == t)).map (fun r => r.file_type)

/-- The lower-bound gap check of lines 329-346 for one combination:
every distinct `end_validity` instant of its settled rows must exhibit
every target category.  The source sets `selected_rows_valid = False`
and breaks on the first missing category; that early exit computes
exactly this conjunction. -/
def comboValid (settled : List ProductRecord) (targets : List String)
    (ac pt st : String) : Bool :=
  let sel := comboRows settled ac pt st
  (distinctsBy (fun r => r.end_validity) sel).all
    (fun t => targets.all (fun tf => decide (tf ∈ typesAt sel t)))

/-- The `valid_products` dataframe of lines 324-359: candidates filtered
by the lower-bound check, one row per analysis center that keeps at
least one pair, in candidate row order, pairs again as a sorted set. -/
def validProducts (df : List ProductRecord) (tStart tEnd : Nat)
    (targets : List String) : List (String × List (String × String)) :=
  (candidates df tEnd).filterMap (fun row =>
    if row.2.filter
        (fun pr => comboValid (settledRecords df tStart) targets row.1 pr.1 pr.2) = []
    then none
    else some (row.1, sortedSet (row.2.filter
        (fun pr => comboValid (settledRecords df tStart) targets row.1 pr.1 pr.2))))

/-- Embedding of `CDDIS_Handler.get_valid_products_by_datetime`
(lines 292-364).  On a catalog built from zero accepted lines,
`pd.DataFrame([])` has no columns, so the column access
`self.df["end_validity"]` at line 302 raises `KeyError`; on a non-empty
catalog with an empty `valid_products` result the source raises
`RuntimeError("no valid product tuple found for input datetime")`
(lines 361-362).  Both raised exceptions are modelled as `Except.error`
with the exception text. -/
def get_valid_products_by_datetime (df : List ProductRecord)
    (tStart tEnd : Nat) (targets : List String) :
    Except String (List (String × List (String × String))) :=
  if df = [] then .error "KeyError: end_validity"
  else
    let vp := validProducts df tStart tEnd targets
    if vp = [] then .error "no valid product tuple found for input datetime"
    else .ok vp

/-- Embedding of `CDDIS_Handler.get_df_of_valid_types_tuples`
(lines 375-386) over a `valid_products` value: the `available_types` of
the first row whose `analysis_center` matches.  When no row matches,
`.iloc[0]` on the empty selection raises `IndexError`, modelled as
`Except.error`. -/
def get_df_of_valid_types_tuples
    (valid_products : List (String × List (String × String)))
    (analysis_center : String) : Except String (List (String × String)) :=
  match valid_products.find? (fun row => row.1 == analysis_center) with
  | some row => .ok row.2
  | none => .error "IndexError: single positional indexer is out-of-bounds"

/-- Solution types listed for one project type, in row order: the
`valid_solution_types` of line 454. -/
def solutionsFor (tuples : List (String × String)) (pt : String) :
    List String :=
  tuples.filterMap (fun pr => if pr.1 == pt then some pr.2 else none)

/-- The nested priority loops of lines 453-459: outer loop over project
priorities, inner loop over solution priorities, returning on the first
solution type present for the current project type. -/
def selectLoop : List String → List String → List (String × String) →
    Option (String × String)
  | [], _, _ => none
  | pt :: pts, spris, tuples =>
    match spris.find? (fun st => (solutionsFor tuples pt).contains st) with
    | some st => some (pt, st)
    | none => selectLoop pts spris tuples

/-- Embedding of `CDDIS_Handler.get_optimal_project_solution_tuple`
(lines 426-459) on the default `satellite_constellations = None` path:
priority lists are the hard-coded `["MGX"]` and `["FIN", "RAP", "ULT"]`;
falling through both loops returns `(None, None)`.  The `IndexError`
of `get_df_of_valid_types_tuples` propagates. -/
def get_optimal_project_solution_tuple
    (valid_products : List (String × List (String × String)))
    (analysis_center : String) :
    Except String (Option String × Option String) :=
  match get_df_of_valid_types_tuples valid_products analysis_center with
  | .error e => .error e
  | .ok tuples =>
    match selectLoop ["MGX"] ["FIN", "RAP", "ULT"] tuples with
    | some pr => .ok (some pr.1, some pr.2)
    | none => .ok (none, none)

/-! Spec-level predicates used to state the claims. -/

/-- Membership of a combination in a coverage-shaped table. -/
def memCoverage (vp : List (String × List (String × String)))
    (ac pt st : String) : Prop :=
  ∃ row ∈ vp, row.1 = ac ∧ (pt, st) ∈ row.2

/-- The combination survives the upper-bound pass. -/
def isCandidate (df : List ProductRecord) (tEnd : Nat)
    (ac pt st : String) : Prop :=
  memCoverage (candidates df tEnd) ac pt st

/-- Every target category is observed at instant `t` of `sel`. -/
def instantComplete (sel : List ProductRecord) (targets : List String)
    (t : Nat) : Prop :=
  ∀ tf ∈ targets, ∃ r ∈ sel, r.end_validity = t ∧ r.file_type = tf

instance (vp : List (String × List (String × String))) (ac pt st : String) :
    Decidable (memCoverage vp ac pt st) := by
  unfold memCoverage; infer_instance

instance (df : List ProductRecord) (tEnd : Nat) (ac pt st : String) :
    Decidable (isCandidate df tEnd ac pt st) := by
  unfold isCandidate; infer_instance

instance (sel : List ProductRecord) (targets : List String) (t : Nat) :
    Decidable (instantComplete sel targets t) := by
  unfold instantComplete; infer_instance


/-! Documented filename grammar of the spec (section 6), used to compare
the documented grammar with the regex the code applies (C9). -/

/-- Consume an ordered list of fixed-width character-class pieces from
the front of the input, returning the remainder. -/
def matchFixed : List (Nat × (Char → Bool)) → List Char → Option (List Char)
  | [], cs => some cs
  | (n, p) :: ps, cs =>
    match grabN p n cs with
    | none => none
    | some (_, r) => matchFixed ps r

/-- Fixed-width part of the documented grammar
`AAA0PPPSSS_YYYYDDDHHMM_DDu_RRu_xxx.CCC[.ext]` of spec section 6,
following the words of the spec: alphanumeric codes, an ignored fourth
character, a unit letter `u` after the duration and sample-rate digits,
three ignored characters, and a literal dot before the category. -/
def specFixedPattern : List (Nat × (Char → Bool)) :=
  [ (3, Char.isAlphanum)      -- AAA analysis center, alnum
  , (1, isRegexDot)           -- 4th char ignored (padding)
  , (3, Char.isAlphanum)      -- PPP project type
  , (3, Char.isAlphanum)      -- SSS solution type
  , (1, fun c => c == '_')
  , (11, Char.isDigit)        -- YYYYDDDHHMM
  , (1, fun c => c == '_')
  , (2, Char.isDigit)         -- DD duration value
  , (1, Char.isAlpha)         -- u unit letter
  , (1, fun c => c == '_')
  , (2, Char.isDigit)         -- RR sample-rate value
  , (1, Char.isAlpha)         -- u unit letter
  , (1, fun c => c == '_')
  , (3, isRegexDot)           -- xxx three ignored characters
  , (1, fun c => c == '.') ]  -- literal dot before the category

/-- Documented grammar test, following the words of spec section 6: the
fixed-width prefix above, then a non-empty alphanumeric variable-length
category code, optionally followed by a dot-introduced compression
extension. -/
def specGrammarMatch (tok : String) : Bool :=
  match matchFixed specFixedPattern tok.data with
  | none => false
  | some rest =>
    decide (rest.takeWhile Char.isAlphanum ≠ []) &&
      (decide (rest.dropWhile Char.isAlphanum = []) ||
        (rest.dropWhile Char.isAlphanum).headD ' ' == '.')

/-- Grammar the code actually enforces: `(matchGroups shapePattern).isSome`,
the shape of the regex of source line 213, where the unit positions and
the pre-category separator are arbitrary non-newline characters and the
category is exactly three characters of `[A-Z0-9]`. -/
def relaxedGrammarMatch (tok : String) : Bool :=
  (matchGroups shapePattern tok.data).isSome

/-! Definitions for the round-trip property (C10). -/

/-- ASCII digit character of value `d`; values of ten or more clamp to
the digit 9 and are never reached below ten. -/
def digitChar (d : Nat) : Char :=
  match d with
  | 0 => '0' | 1 => '1' | 2 => '2' | 3 => '3' | 4 => '4'
  | 5 => '5' | 6 => '6' | 7 => '7' | 8 => '8' | _ => '9'

/-- Zero-padded decimal rendering of `v` on `w` digits. -/
def padNum : Nat → Nat → List Char
  | 0, _ => []
  | w + 1, v => padNum w (v / 10) ++ [digitChar (v % 10)]

/-- Modelled from the spec: the record-shaped input of the round-trip
property of spec section 8, built from valid (center, project, solution,
timestamp, duration, category) fields; the repository has no formatter,
so these fields and the formatter below follow the grammar of spec
section 6. -/
structure RecordFields where
  center : String
  project : String
  solution : String
  year : Nat
  doy : Nat
  hour : Nat
  minute : Nat
  durationDays : Nat
  category : String
deriving Repr, DecidableEq

/-- Modelled from the spec: characters of the grammar string
`AAA0PPPSSS_YYYYDDDHHMM_DDu_RRu_xxx.CCC` of spec section 6 for the given
fields (no formatter exists in the source).  The ignored positions take
fixed fillers: padding digit 0, unit letters D, sample rate 01D, ignored
block OSB, and the literal dot before the category. -/
def formatChars (f : RecordFields) : List Char :=
  f.center.data ++ (['0'] ++ (f.project.data ++ (f.solution.data ++ (['_'] ++
    (padNum 4 f.year ++ (padNum 3 f.doy ++ (padNum 2 f.hour ++ (padNum 2 f.minute ++
    (['_'] ++ (padNum 2 f.durationDays ++ (['D'] ++ (['_'] ++ (['0', '1'] ++
    (['D'] ++ (['_'] ++ (['O', 'S', 'B'] ++ (['.'] ++ f.category.data)))))))))))))))))

/-- Modelled from the spec: the grammar string for the given fields. -/
def formatFields (f : RecordFields) : String := ⟨formatChars f⟩

/-- Record that parsing the formatted string is expected to return:
the same named fields, timestamp and duration encoded exactly as the
parser encodes them, and the formatted string as the retained
filename. -/
def mkRecord (f : RecordFields) : ProductRecord :=
  { analysis_center := f.center
    project_type := f.project
    solution_type := f.solution
    end_validity := encodeYDHM f.year f.doy f.hour f.minute
    file_type := f.category
    duration := f.durationDays * 1440
    filename := formatFields f }

/-- Validity of the fields per the grammar and the timestamp decoder:
three-character codes of the right character classes, a decodable
timestamp, a two-digit duration, and a category of exactly three
characters of `[A-Z0-9]`. -/
def validFields (f : RecordFields) : Prop :=
  f.center.data.length = 3 ∧ (∀ c ∈ f.center.data, isAlnumUpper c = true) ∧
  f.project.data.length = 3 ∧ (∀ c ∈ f.project.data, Char.isUpper c = true) ∧
  f.solution.data.length = 3 ∧ (∀ c ∈ f.solution.data, Char.isUpper c = true) ∧
  0 < f.year ∧ f.year ≤ 9999 ∧ 0 < f.doy ∧ f.doy ≤ 366 ∧
  f.hour ≤ 23 ∧ f.minute ≤ 59 ∧
  ¬(daysInYear f.year < f.doy ∧ f.year = 9999) ∧
  f.durationDays ≤ 99 ∧
  f.category.data.length = 3 ∧ (∀ c ∈ f.category.data, isAlnumUpper c = true)

instance (f : RecordFields) : Decidable (validFields f) := by
  unfold validFields; infer_instance

/-! Membership lemmas about the grouping combinators. -/

theorem mem_distinctsBy {α : Type} [DecidableEq α] (f : ProductRecord → α)
    (rs : List ProductRecord) (x : α) :
    x ∈ distinctsBy f rs ↔ ∃ r ∈ rs, f r = x := by
  have key : ∀ acc : List α,
      x ∈ rs.foldl (fun acc r => if f r ∈ acc then acc else acc ++ [f r]) acc ↔
        x ∈ acc ∨ ∃ r ∈ rs, f r = x := by
    induction rs with
    | nil => intro acc; simp
    | cons r rs ih =>
      intro acc
      simp only [List.foldl_cons]
      rw [ih]
      by_cases h : f r ∈ acc
      · rw [if_pos h]
        constructor
        · rintro (hx | ⟨r1, hr1, hfx⟩)
          · exact Or.inl hx
          · exact Or.inr ⟨r1, List.mem_cons_of_mem _ hr1, hfx⟩
        · rintro (hx | ⟨r1, hr1, hfx⟩)
          · exact Or.inl hx
          · rcases List.mem_cons.mp hr1 with rfl | hr1
            · exact Or.inl (hfx ▸ h)
            · exact Or.inr ⟨r1, hr1, hfx⟩
      · rw [if_neg h]
        simp only [List.mem_append, List.mem_singleton]
        constructor
        · rintro ((hx | hx) | ⟨r1, hr1, hfx⟩)
          · exact Or.inl hx
          · exact Or.inr ⟨r, List.mem_cons_self .., hx.symm⟩
          · exact Or.inr ⟨r1, List.mem_cons_of_mem _ hr1, hfx⟩
        · rintro (hx | ⟨r1, hr1, hfx⟩)
          · exact Or.inl (Or.inl hx)
          · rcases List.mem_cons.mp hr1 with rfl | hr1
            · exact Or.inl (Or.inr hfx.symm)
            · exact Or.inr ⟨r1, hr1, hfx⟩
  simpa using key []

theorem mem_pairInsert (x y : String × String) (l : List (String × String)) :
    y ∈ pairInsert x l ↔ y = x ∨ y ∈ l := by
  induction l with
  | nil => simp [pairInsert]
  | cons z zs ih =>
    simp only [pairInsert]
    by_cases h : pairLtB x z = true
    · simp only [if_pos h, List.mem_cons]
    · simp only [if_neg h, List.mem_cons, ih]
      tauto

theorem mem_sortPairs (l : List (String × String)) (y : String × String) :
    y ∈ sortPairs l ↔ y ∈ l := by
  induction l with
  | nil => simp [sortPairs]
  | cons z zs ih =>
    simp only [sortPairs, List.foldr_cons] at ih ⊢
    rw [mem_pairInsert, ih, List.mem_cons]

theorem mem_dedupPairs (l : List (String × String)) (y : String × String) :
    y ∈ dedupPairs l ↔ y ∈ l := by
  induction l with
  | nil => simp [dedupPairs]
  | cons z zs ih =>
    simp only [dedupPairs]
    by_cases h : z ∈ zs
    · rw [if_pos h, ih, List.mem_cons]
      constructor
      · exact Or.inr
      · rintro (rfl | hy)
        · exact h
        · exact hy
    · rw [if_neg h, List.mem_cons, ih, List.mem_cons]

theorem mem_sortedSet (l : List (String × String)) (y : String × String) :
    y ∈ sortedSet l ↔ y ∈ l := by
  rw [sortedSet, mem_sortPairs, mem_dedupPairs]

theorem mem_tuplesOf (rs : List ProductRecord) (ac pt st : String) :
    (pt, st) ∈ tuplesOf rs ac ↔
      ∃ r ∈ rs, r.analysis_center = ac ∧ r.project_type = pt ∧
        r.solution_type = st := by
  simp only [tuplesOf, List.mem_filterMap]
  constructor
  · rintro ⟨r, hr, hsome⟩
    by_cases h : r.analysis_center = ac
    · rw [if_pos h] at hsome
      simp only [Option.some.injEq, Prod.mk.injEq] at hsome
      exact ⟨r, hr, h, hsome.1, hsome.2⟩
    · rw [if_neg h] at hsome
      exact absurd hsome (by simp)
  · rintro ⟨r, hr, h1, h2, h3⟩
    exact ⟨r, hr, by rw [if_pos h1, h2, h3]⟩

theorem memCoverage_productTuples (rs : List ProductRecord)
    (ac pt st : String) :
    memCoverage (productTuples rs) ac pt st ↔
      ∃ r ∈ rs, r.analysis_center = ac ∧ r.project_type = pt ∧
        r.solution_type = st := by
  constructor
  · rintro ⟨row, hrow, hac, hmem⟩
    rcases List.mem_map.mp hrow with ⟨ac0, _, rfl⟩
    rcases hac with rfl
    exact (mem_tuplesOf ..).mp ((mem_sortedSet ..).mp hmem)
  · rintro ⟨r, hr, h1, h2, h3⟩
    refine ⟨(ac, sortedSet (tuplesOf rs ac)), ?_, rfl, ?_⟩
    · exact List.mem_map.mpr
        ⟨ac, (mem_distinctsBy ..).mpr ⟨r, hr, h1⟩, rfl⟩
    · exact (mem_sortedSet ..).mpr ((mem_tuplesOf ..).mpr ⟨r, hr, h1, h2, h3⟩)

theorem isCandidate_iff (df : List ProductRecord) (tEnd : Nat)
    (ac pt st : String) :
    isCandidate df tEnd ac pt st ↔
      ∃ r ∈ df, r.analysis_center = ac ∧ r.project_type = pt ∧
        r.solution_type = st ∧ tEnd ≤ r.end_validity + r.duration := by
  rw [isCandidate, candidates, memCoverage_productTuples]
  constructor
  · rintro ⟨r, hr, h1, h2, h3⟩
    rcases List.mem_filter.mp hr with ⟨hdf, hcond⟩
    exact ⟨r, hdf, h1, h2, h3, of_decide_eq_true hcond⟩
  · rintro ⟨r, hdf, h1, h2, h3, h4⟩
    exact ⟨r, List.mem_filter.mpr ⟨hdf, decide_eq_true h4⟩, h1, h2, h3⟩

theorem mem_typesAt (sel : List ProductRecord) (t : Nat) (tf : String) :
    tf ∈ typesAt sel t ↔
      ∃ r ∈ sel, r.end_validity = t ∧ r.file_type = tf := by
  simp [typesAt, List.mem_map, List.mem_filter, and_assoc]

theorem comboValid_iff (settled : List ProductRecord) (targets : List String)
    (ac pt st : String) :
    comboValid settled targets ac pt st = true ↔
      ∀ t ∈ distinctsBy (fun r => r.end_validity) (comboRows settled ac pt st),
        instantComplete (comboRows settled ac pt st) targets t := by
  simp only [comboValid, List.all_eq_true, decide_eq_true_eq, instantComplete,
    mem_typesAt]

theorem memCoverage_validProducts (df : List ProductRecord)
    (tStart tEnd : Nat) (targets : List String) (ac pt st : String) :
    memCoverage (validProducts df tStart tEnd targets) ac pt st ↔
      isCandidate df tEnd ac pt st ∧
        comboValid (settledRecords df tStart) targets ac pt st = true := by
  constructor
  · rintro ⟨row, hrow, hac, hmem⟩
    rcases List.mem_filterMap.mp hrow with ⟨row0, hrow0, hsome⟩
    by_cases hemp : row0.2.filter
        (fun pr => comboValid (settledRecords df tStart) targets row0.1 pr.1 pr.2) = []
    · rw [if_pos hemp] at hsome
      exact absurd hsome (by simp)
    · rw [if_neg hemp] at hsome
      simp only [Option.some.injEq] at hsome
      subst hsome
      try dsimp only at hac hmem
      rcases List.mem_filter.mp ((mem_sortedSet ..).mp hmem) with ⟨hpair, hvalid⟩
      try dsimp only at hvalid
      subst hac
      exact ⟨⟨row0, hrow0, rfl, hpair⟩, hvalid⟩
  · rintro ⟨⟨row0, hrow0, hac, hmem⟩, hvalid⟩
    subst hac
    have hpair : (pt, st) ∈ row0.2.filter
        (fun pr => comboValid (settledRecords df tStart) targets row0.1 pr.1 pr.2) :=
      List.mem_filter.mpr ⟨hmem, hvalid⟩
    refine ⟨(row0.1, sortedSet (row0.2.filter
        (fun pr => comboValid (settledRecords df tStart) targets row0.1 pr.1 pr.2))),
      ?_, rfl, (mem_sortedSet ..).mpr hpair⟩
    refine List.mem_filterMap.mpr ⟨row0, hrow0, ?_⟩
    try dsimp only
    rw [if_neg (List.ne_nil_of_mem hpair)]

theorem validProducts_ne_nil_of_mem {df : List ProductRecord}
    {tStart tEnd : Nat} {targets : List String} {ac pt st : String}
    (h : memCoverage (validProducts df tStart tEnd targets) ac pt st) :
    validProducts df tStart tEnd targets ≠ [] := by
  rcases h with ⟨row, hrow, _⟩
  exact List.ne_nil_of_mem hrow

theorem get_valid_eq_ok {df : List ProductRecord} {tStart tEnd : Nat}
    {targets : List String} (hdf : df ≠ [])
    (hvp : validProducts df tStart tEnd targets ≠ []) :
    get_valid_products_by_datetime df tStart tEnd targets =
      .ok (validProducts df tStart tEnd targets) := by
  rw [get_valid_products_by_datetime, if_neg hdf]
  simp only [if_neg hvp]

theorem get_valid_ok_inv {df : List ProductRecord} {tStart tEnd : Nat}
    {targets : List String} {res : List (String × List (String × String))}
    (h : get_valid_products_by_datetime df tStart tEnd targets = .ok res) :
    res = validProducts df tStart tEnd targets := by
  rw [get_valid_products_by_datetime] at h
  by_cases h1 : df = []
  · rw [if_pos h1] at h
    exact absurd h (by simp)
  · rw [if_neg h1] at h
    by_cases h2 : validProducts df tStart tEnd targets = []
    · simp only [if_pos h2] at h
      exact absurd h (by simp)
    · simp only [if_neg h2] at h
      exact (Except.ok.inj h).symm

theorem isCandidate_ne_nil {df : List ProductRecord} {tEnd : Nat}
    {ac pt st : String} (hc : isCandidate df tEnd ac pt st) : df ≠ [] := by
  rcases (isCandidate_iff ..).mp hc with ⟨r, hr, _⟩
  exact List.ne_nil_of_mem hr

theorem df_parse_eq_filterMap (lines : List String) :
    df_parse_cddis_str_array lines = lines.filterMap parseLine := by
  have key : ∀ (ls : List String) (acc : List ProductRecord),
      ls.foldl
        (fun acc l =>
          match parseLine l with
          | some r => acc ++ [r]
          | none => acc) acc
        = acc ++ ls.filterMap parseLine := by
    intro ls
    induction ls with
    | nil => intro acc; simp
    | cons l ls ih =>
      intro acc
      simp only [List.foldl_cons, List.filterMap_cons]
      cases h : parseLine l with
      | none => simp only [h, ih]
      | some r => simp only [h, ih, List.append_assoc, List.singleton_append]
  simpa using key lines []

/-! The claims. -/

/-- C1: the claim states that whenever resolution yields no surviving
combination — including over a catalog built from an empty line batch —
`get_valid_products_by_datetime` reports the named no-coverage failure as
a typed result, never crashing on an empty catalog and never using an
exception for control flow.  The code does the opposite, contradicting
its own docstring ("if no valids then return empty df"): on the empty
catalog the column access of line 302 raises `KeyError`, and the
no-coverage outcome is raised as `RuntimeError` at lines 361-362.  This
theorem evaluates the embedding at both failing inputs: an empty line
batch, and a batch whose only record reaches strictly before the window
end (its `end_validity + duration` is one minute short). -/
theorem claim_C1_no_coverage_raises :
    get_valid_products_by_datetime (df_parse_cddis_str_array [])
        (encodeYDHM 2025 96 0 0) (encodeYDHM 2025 96 0 0)
        ["CLK", "BIA", "SP3"]
      = .error "KeyError: end_validity"
    ∧ get_valid_products_by_datetime
        (df_parse_cddis_str_array ["COD0MGXFIN_20250960000_01D_01D_OSB.BIA"])
        (encodeYDHM 2025 96 0 0) (encodeYDHM 2025 96 0 0 + 1441)
        ["CLK", "BIA", "SP3"]
      = .error "no valid product tuple found for input datetime" := by
  exact ⟨by decide, by decide⟩

/-- C2: for the three OSB lines of analysis center COD, a window whose
start and end both equal the decoded timestamp of 2025 day-of-year 096
00:00, and required categories BIA, CLK, SP3, the resolver returns
exactly the mapping COD ↦ [(MGX, FIN)] and the priority selector for COD
returns (MGX, FIN).  The last conjunct checks that the timestamp used is
the decoded one. -/
theorem claim_C2_end_to_end :
    get_valid_products_by_datetime
        (df_parse_cddis_str_array
          ["COD0MGXFIN_20250960000_01D_01D_OSB.BIA",
           "COD0MGXFIN_20250960000_01D_01D_OSB.CLK",
           "COD0MGXFIN_20250960000_01D_01D_OSB.SP3"])
        (encodeYDHM 2025 96 0 0) (encodeYDHM 2025 96 0 0)
        ["BIA", "CLK", "SP3"]
      = .ok [("COD", [("MGX", "FIN")])]
    ∧ get_optimal_project_solution_tuple [("COD", [("MGX", "FIN")])] "COD"
      = .ok (some "MGX", some "FIN")
    ∧ decodeYDHM 2025 96 0 0 = some (encodeYDHM 2025 96 0 0) := by
  exact ⟨by decide, by decide, by decide⟩

/-- C4: a combination is a candidate after the upper-bound pass iff it
has a record with `end_validity + duration ≥ window.end`; a single record
meeting the bound exactly is a candidate, and moving
`end_validity + duration` one minute before the window end excludes
it. -/
theorem claim_C4_upper_bound_pass :
    (∀ (df : List ProductRecord) (tEnd : Nat) (ac pt st : String),
      isCandidate df tEnd ac pt st ↔
        ∃ r ∈ df, r.analysis_center = ac ∧ r.project_type = pt ∧
          r.solution_type = st ∧ tEnd ≤ r.end_validity + r.duration)
    ∧ isCandidate [⟨"COD", "MGX", "FIN", 900, "BIA", 100, "f"⟩] 1000
        "COD" "MGX" "FIN"
    ∧ ¬ isCandidate [⟨"COD", "MGX", "FIN", 899, "BIA", 100, "f"⟩] 1000
        "COD" "MGX" "FIN" := by
  exact ⟨isCandidate_iff, by decide, by decide⟩

/-- C5: the claim states that `get_optimal_project_solution_tuple`
returns (None, None) for every analysis center whose coverage shares no
pair with the priority lists, including a center with no row in the
coverage result.  The code contradicts its own docstring ("on success
(project_type, solution_type) else (None, None)") in the second case:
for a center with no row, `.iloc[0]` at line 384 raises `IndexError`.
This theorem evaluates the embedding on a center present with no
intersecting pair (the documented (None, None) outcome) and on an absent
center (the raised `IndexError`). -/
theorem claim_C5_absent_center_raises :
    get_optimal_project_solution_tuple [("GFZ", [("OPS", "FIN")])] "GFZ"
      = .ok (none, none)
    ∧ get_optimal_project_solution_tuple [("GFZ", [("OPS", "FIN")])] "EMR"
      = .error "IndexError: single positional indexer is out-of-bounds" := by
  exact ⟨by decide, by decide⟩

/-- C6: project-type priority is evaluated outermost.  On a coverage
result holding (MGX, RAP), (MGX, ULT) and (OPS, FIN), the selector
(whose hard-coded lists begin with project MGX and solutions
FIN, RAP, ULT) returns (MGX, RAP); the same holds for the priority loop
run with the explicit lists [MGX, OPS] / [FIN, RAP, ULT], and the result
differs from (OPS, FIN) even though FIN ranks higher in the solution
list. -/
theorem claim_C6_priority_outermost :
    get_optimal_project_solution_tuple
        [("COD", [("MGX", "RAP"), ("MGX", "ULT"), ("OPS", "FIN")])] "COD"
      = .ok (some "MGX", some "RAP")
    ∧ selectLoop ["MGX", "OPS"] ["FIN", "RAP", "ULT"]
        [("MGX", "RAP"), ("MGX", "ULT"), ("OPS", "FIN")]
      = some ("MGX", "RAP")
    ∧ get_optimal_project_solution_tuple
        [("COD", [("MGX", "RAP"), ("MGX", "ULT"), ("OPS", "FIN")])] "COD"
      ≠ .ok (some "OPS", some "FIN") := by
  exact ⟨by decide, by decide, by decide⟩

/-- C7: parsing is total — the embedding returns an `Option` and the
catalog equals the `filterMap` of the per-line parser, so every input
batch yields exactly one record per line whose first
whitespace-delimited token parses, and lines that are empty, fail the
grammar, or carry an undecodable timestamp (day-of-year 000 below) are
silently dropped. -/
theorem claim_C7_parse_never_raises :
    (∀ lines : List String,
      df_parse_cddis_str_array lines = lines.filterMap parseLine)
    ∧ parseLine "" = none
    ∧ parseLine "not_a_product_file.txt 2025:04:17 10:38:56 63.19KB" = none
    ∧ parseLine "COD0MGXFIN_20250000000_01D_01D_OSB.BIA" = none := by
  exact ⟨df_parse_eq_filterMap, by decide, by decide, by decide⟩

/-- C8: a candidate with zero settled records before the window start
passes the lower-bound check vacuously and appears in the final coverage
result. -/
theorem claim_C8_vacuous_lower_bound (df : List ProductRecord)
    (tStart tEnd : Nat) (targets : List String) (ac pt st : String)
    (hc : isCandidate df tEnd ac pt st)
    (hz : comboRows (settledRecords df tStart) ac pt st = []) :
    ∃ res, get_valid_products_by_datetime df tStart tEnd targets = .ok res ∧
      memCoverage res ac pt st := by
  have hvalid : comboValid (settledRecords df tStart) targets ac pt st = true := by
    rw [comboValid_iff, hz]
    simp [distinctsBy]
  have hmem := (memCoverage_validProducts df tStart tEnd targets ac pt st).mpr
    ⟨hc, hvalid⟩
  exact ⟨validProducts df tStart tEnd targets,
    get_valid_eq_ok (isCandidate_ne_nil hc) (validProducts_ne_nil_of_mem hmem),
    hmem⟩

/-- C8 witness: a one-record catalog whose record ends inside the window
(settled set empty) is returned as valid. -/
theorem claim_C8_witness :
    isCandidate [⟨"COD", "MGX", "FIN", 10, "CLK", 5, "f"⟩] 10 "COD" "MGX" "FIN"
    ∧ comboRows (settledRecords [⟨"COD", "MGX", "FIN", 10, "CLK", 5, "f"⟩] 5)
        "COD" "MGX" "FIN" = []
    ∧ ∃ res, get_valid_products_by_datetime
        [⟨"COD", "MGX", "FIN", 10, "CLK", 5, "f"⟩] 5 10 ["CLK", "BIA", "SP3"]
        = .ok res ∧ memCoverage res "COD" "MGX" "FIN" :=
  ⟨by decide, by decide,
    claim_C8_vacuous_lower_bound _ _ _ _ _ _ _ (by decide) (by decide)⟩

/-- C3: a single settled instant missing a required category excludes
the whole combination from the final coverage result, no matter how many
other instants are complete; and adding one record of the same
combination that supplies the missing category at that instant — after
which every settled instant is complete — puts the combination back into
the result, provided it passes the upper-bound pass. -/
theorem claim_C3_single_gap_disqualifies (df : List ProductRecord)
    (tStart tEnd : Nat) (targets : List String) (ac pt st : String)
    (hbad : ∃ t ∈ distinctsBy (fun r => r.end_validity)
        (comboRows (settledRecords df tStart) ac pt st),
        ¬ instantComplete (comboRows (settledRecords df tStart) ac pt st)
          targets t) :
    (∀ res, get_valid_products_by_datetime df tStart tEnd targets = .ok res →
        ¬ memCoverage res ac pt st)
    ∧ (∀ r0 : ProductRecord,
        r0.analysis_center = ac → r0.project_type = pt →
        r0.solution_type = st →
        isCandidate (df ++ [r0]) tEnd ac pt st →
        (∀ t ∈ distinctsBy (fun r => r.end_validity)
            (comboRows (settledRecords (df ++ [r0]) tStart) ac pt st),
          instantComplete (comboRows (settledRecords (df ++ [r0]) tStart) ac pt st)
            targets t) →
        ∃ res, get_valid_products_by_datetime (df ++ [r0]) tStart tEnd targets
            = .ok res ∧ memCoverage res ac pt st) := by
  constructor
  · intro res hres hmem
    rcases hbad with ⟨t, ht, hnc⟩
    have hvp := get_valid_ok_inv hres ▸ hmem
    have h2 := ((memCoverage_validProducts df tStart tEnd targets ac pt st).mp hvp).2
    exact hnc ((comboValid_iff ..).mp h2 t ht)
  · intro r0 _ _ _ hcand hall
    have hvalid := (comboValid_iff (settledRecords (df ++ [r0]) tStart)
      targets ac pt st).mpr hall
    have hmem := (memCoverage_validProducts (df ++ [r0]) tStart tEnd targets
      ac pt st).mpr ⟨hcand, hvalid⟩
    exact ⟨_, get_valid_eq_ok (isCandidate_ne_nil hcand)
      (validProducts_ne_nil_of_mem hmem), hmem⟩

/-- C3 witness: a one-record catalog whose single settled instant lacks
category BIA.  The record reaches past the window end, so only the
lower-bound gap disqualifies it. -/
theorem claim_C3_witness :
    (∃ t ∈ distinctsBy (fun r => r.end_validity)
        (comboRows (settledRecords
          [⟨"COD", "MGX", "FIN", 100, "CLK", 1000000, "f1"⟩] 200)
          "COD" "MGX" "FIN"),
        ¬ instantComplete (comboRows (settledRecords
          [⟨"COD", "MGX", "FIN", 100, "CLK", 1000000, "f1"⟩] 200)
          "COD" "MGX" "FIN") ["CLK", "BIA"] t)
    ∧ ((∀ res, get_valid_products_by_datetime
          [⟨"COD", "MGX", "FIN", 100, "CLK", 1000000, "f1"⟩] 200 300
          ["CLK", "BIA"] = .ok res → ¬ memCoverage res "COD" "MGX" "FIN")
      ∧ (∀ r0 : ProductRecord,
          r0.analysis_center = "COD" → r0.project_type = "MGX" →
          r0.solution_type = "FIN" →
          isCandidate ([⟨"COD", "MGX", "FIN", 100, "CLK", 1000000, "f1"⟩] ++ [r0])
            300 "COD" "MGX" "FIN" →
          (∀ t ∈ distinctsBy (fun r => r.end_validity)
              (comboRows (settledRecords
                ([⟨"COD", "MGX", "FIN", 100, "CLK", 1000000, "f1"⟩] ++ [r0]) 200)
                "COD" "MGX" "FIN"),
            instantComplete (comboRows (settledRecords
              ([⟨"COD", "MGX", "FIN", 100, "CLK", 1000000, "f1"⟩] ++ [r0]) 200)
              "COD" "MGX" "FIN") ["CLK", "BIA"] t) →
          ∃ res, get_valid_products_by_datetime
              ([⟨"COD", "MGX", "FIN", 100, "CLK", 1000000, "f1"⟩] ++ [r0]) 200 300
              ["CLK", "BIA"] = .ok res ∧ memCoverage res "COD" "MGX" "FIN")) :=
  ⟨by decide, claim_C3_single_gap_disqualifies _ _ _ _ _ _ _ (by decide)⟩

/-- C9 counterexample: the token
`COD0MGXFIN_20250960000_01D_01D_OSBXBIA` has `X` where the documented
grammar requires the literal dot, so it falls outside the documented
grammar, yet the parser still produces a record for it — refuting the
claim that only tokens of the documented grammar yield records. -/
theorem claim_C9_counterexample :
    specGrammarMatch "COD0MGXFIN_20250960000_01D_01D_OSBXBIA" = false
    ∧ (parseLine "COD0MGXFIN_20250960000_01D_01D_OSBXBIA").isSome = true := by
  exact ⟨by decide, by decide⟩

/-- Helper for C9: a token whose shape fails the regex yields no record. -/
theorem parseFilename_none_of_shape (tok : String)
    (hmg : matchGroups shapePattern tok.data = none) :
    parseFilename tok = none := by
  unfold parseFilename splitShape
  rw [hmg]

/-- C9 amended: a record exists only for a line whose first
whitespace-delimited token matches the grammar the regex actually
enforces — the documented grammar relaxed so that the two unit-letter
positions and the separator before the category accept any non-newline
character, and the category is exactly three characters of `[A-Z0-9]`. -/
theorem claim_C9_record_implies_grammar (line : String) (r : ProductRecord)
    (h : parseLine line = some r) :
    ∃ tok, firstToken line = some tok ∧ relaxedGrammarMatch tok = true := by
  unfold parseLine at h
  cases hft : firstToken line with
  | none => rw [hft] at h; cases h
  | some tok =>
    rw [hft] at h
    refine ⟨tok, rfl, ?_⟩
    unfold relaxedGrammarMatch
    cases hmg : matchGroups shapePattern tok.data with
    | none => simp [parseFilename_none_of_shape tok hmg] at h
    | some gs => simp

/-- C9 witness: the well-formed token of the end-to-end example parses,
and its grammar shape is accepted. -/
theorem claim_C9_witness :
    parseLine "COD0MGXFIN_20250960000_01D_01D_OSB.BIA"
      = some (⟨"COD", "MGX", "FIN", 1064658240, "BIA", 1440,
          "COD0MGXFIN_20250960000_01D_01D_OSB.BIA"⟩ : ProductRecord)
    ∧ ∃ tok, firstToken "COD0MGXFIN_20250960000_01D_01D_OSB.BIA" = some tok ∧
        relaxedGrammarMatch tok = true :=
  ⟨by decide, claim_C9_record_implies_grammar
    "COD0MGXFIN_20250960000_01D_01D_OSB.BIA"
    ⟨"COD", "MGX", "FIN", 1064658240, "BIA", 1440,
      "COD0MGXFIN_20250960000_01D_01D_OSB.BIA"⟩
    (by decide)⟩

/-! Round-trip lemmas (C10). -/

theorem grabN_exact (p : Char → Bool) :
    ∀ (xs ys : List Char), (∀ c ∈ xs, p c = true) →
      grabN p xs.length (xs ++ ys) = some (xs, ys)
  | [], _, _ => rfl
  | x :: xs, ys, h => by
    have hx := h x (List.mem_cons_self ..)
    have ih := grabN_exact p xs ys (fun c hc => h c (List.mem_cons_of_mem _ hc))
    simp only [List.length_cons, List.cons_append, grabN, hx, if_pos,
      List.append_eq]
    rw [ih]

theorem matchGroups_cons (n : Nat) (p : Char → Bool)
    (ps : List (Nat × (Char → Bool))) (xs ys : List Char)
    (gs : List (List Char)) (hlen : xs.length = n)
    (hall : ∀ c ∈ xs, p c = true) (h : matchGroups ps ys = some gs) :
    matchGroups ((n, p) :: ps) (xs ++ ys) = some (xs :: gs) := by
  subst hlen
  simp only [matchGroups, grabN_exact p xs ys hall, h]

theorem matchGroups_singleton (n : Nat) (p : Char → Bool) (xs : List Char)
    (hlen : xs.length = n) (hall : ∀ c ∈ xs, p c = true) :
    matchGroups [(n, p)] xs = some [xs] := by
  subst hlen
  have h := grabN_exact p xs [] hall
  rw [List.append_nil] at h
  simp only [matchGroups, h]

theorem digitChar_isDigit (d : Nat) : (digitChar d).isDigit = true := by
  unfold digitChar
  rcases d with _ | _ | _ | _ | _ | _ | _ | _ | _ | n <;> rfl

theorem digitChar_val (d : Nat) (h : d < 10) : (digitChar d).toNat - 48 = d := by
  interval_cases d <;> decide

theorem padNum_length (w v : Nat) : (padNum w v).length = w := by
  induction w generalizing v with
  | zero => rfl
  | succ w ih => simp [padNum, ih]

theorem padNum_isDigit (w v : Nat) : ∀ c ∈ padNum w v, c.isDigit = true := by
  induction w generalizing v with
  | zero => intro c hc; simp [padNum] at hc
  | succ w ih =>
    intro c hc
    simp only [padNum, List.mem_append, List.mem_singleton] at hc
    rcases hc with hc | rfl
    · exact ih _ c hc
    · exact digitChar_isDigit _

theorem digitsToNat_append (xs : List Char) (c : Char) :
    digitsToNat (xs ++ [c]) = 10 * digitsToNat xs + (c.toNat - 48) := by
  simp [digitsToNat, List.foldl_append]

theorem digitsToNat_padNum : ∀ (w v : Nat), v < 10 ^ w →
    digitsToNat (padNum w v) = v
  | 0, v, h => by
    have : v = 0 := by simpa using h
    simp [this, padNum, digitsToNat]
  | w + 1, v, h => by
    have hdiv : v / 10 < 10 ^ w := by
      rw [Nat.div_lt_iff_lt_mul (by norm_num)]
      calc v < 10 ^ (w + 1) := h
        _ = 10 ^ w * 10 := by rw [pow_succ]
    rw [padNum, digitsToNat_append, digitsToNat_padNum w (v / 10) hdiv,
      digitChar_val (v % 10) (Nat.mod_lt _ (by norm_num))]
    omega

theorem decodeYDHM_valid (y doy h m : Nat) (hy0 : 0 < y) (hd0 : 0 < doy)
    (hd366 : doy ≤ 366) (hh : h ≤ 23) (hm : m ≤ 59)
    (hroll : ¬(daysInYear y < doy ∧ y = 9999)) :
    decodeYDHM y doy h m = some (encodeYDHM y doy h m) := by
  unfold decodeYDHM
  rw [if_neg (by omega), if_neg (by omega), if_neg (by omega),
    if_neg (by omega), if_neg hroll]

theorem pyIsSpace_iff (c : Char) :
    pyIsSpace c = true ↔
      c = ' ' ∨ c = '\t' ∨ c = '\n' ∨ c = '\r' ∨ c = '\x0b' ∨ c = '\x0c' := by
  simp only [pyIsSpace, Bool.or_eq_true, beq_iff_eq]
  tauto

theorem pyIsSpace_alnumUpper (c : Char) (h : isAlnumUpper c = true) :
    pyIsSpace c = false := by
  cases hsp : pyIsSpace c
  · rfl
  · rcases (pyIsSpace_iff c).mp hsp with rfl | rfl | rfl | rfl | rfl | rfl <;>
      exact absurd h (by decide)

theorem isAlnumUpper_of_isDigit (c : Char) (h : c.isDigit = true) :
    isAlnumUpper c = true := by
  simp [isAlnumUpper, h]

theorem isAlnumUpper_of_isUpper (c : Char) (h : c.isUpper = true) :
    isAlnumUpper c = true := by
  simp [isAlnumUpper, h]

theorem no_space_append {l1 l2 : List Char}
    (h1 : ∀ c ∈ l1, pyIsSpace c = false) (h2 : ∀ c ∈ l2, pyIsSpace c = false) :
    ∀ c ∈ l1 ++ l2, pyIsSpace c = false := by
  intro c hc
  rcases List.mem_append.mp hc with hc | hc
  · exact h1 c hc
  · exact h2 c hc

theorem no_space_padNum (w v : Nat) : ∀ c ∈ padNum w v, pyIsSpace c = false :=
  fun c hc => pyIsSpace_alnumUpper c (isAlnumUpper_of_isDigit c (padNum_isDigit w v c hc))

theorem takeWhile_all (p : Char → Bool) :
    ∀ cs : List Char, (∀ c ∈ cs, p c = true) → cs.takeWhile p = cs
  | [], _ => rfl
  | c :: cs, h => by
    rw [List.takeWhile_cons, h c (List.mem_cons_self ..),
      takeWhile_all p cs (fun x hx => h x (List.mem_cons_of_mem _ hx))]
    rfl

theorem firstToken_no_space (cs : List Char) (hne : cs ≠ [])
    (h : ∀ c ∈ cs, pyIsSpace c = false) : firstToken ⟨cs⟩ = some ⟨cs⟩ := by
  have hd : cs.dropWhile pyIsSpace = cs := by
    cases cs with
    | nil => rfl
    | cons c cs =>
      rw [List.dropWhile_cons, h c (List.mem_cons_self ..)]
      rfl
  unfold firstToken
  rw [show (⟨cs⟩ : String).data = cs from rfl, hd, if_neg hne,
    takeWhile_all _ cs (fun c hc => by rw [h c hc]; rfl)]

theorem parseFilename_format (f : RecordFields) (hv : validFields f) :
    parseFilename (formatFields f) = some (mkRecord f) := by
  obtain ⟨hc1, hc2, hp1, hp2, hs1, hs2, hy0, hy9, hd0, hd366, hh23, hm59,
    hroll, hdur, hk1, hk2⟩ := hv
  have hmg : matchGroups shapePattern (formatChars f) =
      some [f.center.data, ['0'], f.project.data, f.solution.data, ['_'],
        padNum 4 f.year, padNum 3 f.doy, padNum 2 f.hour, padNum 2 f.minute,
        ['_'], padNum 2 f.durationDays, ['D'], ['_'], ['0', '1'], ['D'],
        ['_'], ['O', 'S', 'B'], ['.'], f.category.data] := by
    unfold shapePattern formatChars
    refine matchGroups_cons 3 _ _ _ _ _ hc1 hc2 ?_
    refine matchGroups_cons 1 _ _ _ _ _ rfl (by decide) ?_
    refine matchGroups_cons 3 _ _ _ _ _ hp1 hp2 ?_
    refine matchGroups_cons 3 _ _ _ _ _ hs1 hs2 ?_
    refine matchGroups_cons 1 _ _ _ _ _ rfl (by decide) ?_
    refine matchGroups_cons 4 _ _ _ _ _ (padNum_length _ _) (padNum_isDigit _ _) ?_
    refine matchGroups_cons 3 _ _ _ _ _ (padNum_length _ _) (padNum_isDigit _ _) ?_
    refine matchGroups_cons 2 _ _ _ _ _ (padNum_length _ _) (padNum_isDigit _ _) ?_
    refine matchGroups_cons 2 _ _ _ _ _ (padNum_length _ _) (padNum_isDigit _ _) ?_
    refine matchGroups_cons 1 _ _ _ _ _ rfl (by decide) ?_
    refine matchGroups_cons 2 _ _ _ _ _ (padNum_length _ _) (padNum_isDigit _ _) ?_
    refine matchGroups_cons 1 _ _ _ _ _ rfl (by decide) ?_
    refine matchGroups_cons 1 _ _ _ _ _ rfl (by decide) ?_
    refine matchGroups_cons 2 _ _ _ _ _ rfl (by decide) ?_
    refine matchGroups_cons 1 _ _ _ _ _ rfl (by decide) ?_
    refine matchGroups_cons 1 _ _ _ _ _ rfl (by decide) ?_
    refine matchGroups_cons 3 _ _ _ _ _ rfl (by decide) ?_
    refine matchGroups_cons 1 _ _ _ _ _ rfl (by decide) ?_
    exact matchGroups_singleton 3 _ _ hk1 hk2
  have hsplit : splitShape (formatFields f).data =
      some (⟨f.center.data, f.project.data, f.solution.data, padNum 4 f.year,
        padNum 3 f.doy, padNum 2 f.hour, padNum 2 f.minute,
        padNum 2 f.durationDays, f.category.data⟩ : RawGroups) := by
    show splitShape (formatChars f) = _
    unfold splitShape
    rw [hmg]
    rfl
  unfold parseFilename
  rw [hsplit]
  have hy : digitsToNat (padNum 4 f.year) = f.year :=
    digitsToNat_padNum 4 f.year (lt_of_le_of_lt hy9 (by norm_num))
  have hdoy : digitsToNat (padNum 3 f.doy) = f.doy :=
    digitsToNat_padNum 3 f.doy (lt_of_le_of_lt hd366 (by norm_num))
  have hhou : digitsToNat (padNum 2 f.hour) = f.hour :=
    digitsToNat_padNum 2 f.hour (lt_of_le_of_lt hh23 (by norm_num))
  have hmin : digitsToNat (padNum 2 f.minute) = f.minute :=
    digitsToNat_padNum 2 f.minute (lt_of_le_of_lt hm59 (by norm_num))
  have hdu : digitsToNat (padNum 2 f.durationDays) = f.durationDays :=
    digitsToNat_padNum 2 f.durationDays (lt_of_le_of_lt hdur (by norm_num))
  simp only [hy, hdoy, hhou, hmin, hdu,
    decodeYDHM_valid f.year f.doy f.hour f.minute hy0 hd0 hd366 hh23 hm59 hroll]
  rfl

/-- C10 counterexample: the claim quantifies over categories of variable
length; for the four-character alphanumeric category CLKX the grammar
string parses back with category truncated to CLK, so the round trip
does not return an equal record. -/
theorem claim_C10_counterexample :
    parseLine (formatFields ⟨"COD", "MGX", "FIN", 2025, 96, 0, 0, 1, "CLKX"⟩)
      ≠ some (mkRecord ⟨"COD", "MGX", "FIN", 2025, 96, 0, 0, 1, "CLKX"⟩)
    ∧ (parseLine (formatFields ⟨"COD", "MGX", "FIN", 2025, 96, 0, 0, 1, "CLKX"⟩)).map
        (fun r => r.file_type) = some "CLK" := by
  exact ⟨by decide, by decide⟩

/-- C10 amended: the round trip holds for every record built from valid
fields whose category has exactly three `[A-Z0-9]` characters (the width
the regex of line 213 captures): formatting into the grammar string and
parsing back yields the equal record, ignored padding positions aside. -/
theorem claim_C10_roundtrip (f : RecordFields) (hv : validFields f) :
    parseLine (formatFields f) = some (mkRecord f) := by
  obtain ⟨hc1, hc2, hp1, hp2, hs1, hs2, hy0, hy9, hd0, hd366, hh23, hm59,
    hroll, hdur, hk1, hk2⟩ := hv
  have hns : ∀ c ∈ formatChars f, pyIsSpace c = false := by
    unfold formatChars
    refine no_space_append (fun c hc => pyIsSpace_alnumUpper c (hc2 c hc)) ?_
    refine no_space_append (by decide) ?_
    refine no_space_append
      (fun c hc => pyIsSpace_alnumUpper c (isAlnumUpper_of_isUpper c (hp2 c hc))) ?_
    refine no_space_append
      (fun c hc => pyIsSpace_alnumUpper c (isAlnumUpper_of_isUpper c (hs2 c hc))) ?_
    refine no_space_append (by decide) ?_
    refine no_space_append (no_space_padNum _ _) ?_
    refine no_space_append (no_space_padNum _ _) ?_
    refine no_space_append (no_space_padNum _ _) ?_
    refine no_space_append (no_space_padNum _ _) ?_
    refine no_space_append (by decide) ?_
    refine no_space_append (no_space_padNum _ _) ?_
    refine no_space_append (by decide) ?_
    refine no_space_append (by decide) ?_
    refine no_space_append (by decide) ?_
    refine no_space_append (by decide) ?_
    refine no_space_append (by decide) ?_
    refine no_space_append (by decide) ?_
    exact no_space_append (by decide)
      (fun c hc => pyIsSpace_alnumUpper c (hk2 c hc))
  have hpos : 0 < (formatChars f).length := by
    unfold formatChars
    simp only [List.length_append, hc1]
    omega
  have hft : firstToken (formatFields f) = some (formatFields f) :=
    firstToken_no_space (formatChars f) (List.length_pos.mp hpos) hns
  unfold parseLine
  rw [hft]
  exact parseFilename_format f
    ⟨hc1, hc2, hp1, hp2, hs1, hs2, hy0, hy9, hd0, hd366, hh23, hm59,
      hroll, hdur, hk1, hk2⟩

/-- C10 witness: the round trip evaluated on the concrete COD record of
the end-to-end example. -/
theorem claim_C10_witness :
    validFields ⟨"COD", "MGX", "FIN", 2025, 96, 0, 0, 1, "BIA"⟩
    ∧ parseLine (formatFields ⟨"COD", "MGX", "FIN", 2025, 96, 0, 0, 1, "BIA"⟩)
      = some (mkRecord ⟨"COD", "MGX", "FIN", 2025, 96, 0, 0, 1, "BIA"⟩) :=
  ⟨by decide, claim_C10_roundtrip _ (by decide)⟩

end CddisHandler
